import Mathlib

/-!
Verification of the Fund Analytics and Recommendation Engine of the AMC
chatbot backend (back-end/react_agent/tools.py, helpers in
back-end/react_agent/utils.py).

The embedding works over exact rationals: the Python source computes with
IEEE floats, but every claim under study is about the algebraic shape of the
formulas (defaults, floors, clamps, orderings), not about floating-point
rounding, so ideal arithmetic is the faithful model.  Strings are modelled
as lists of characters.  The one genuinely real-valued operation in the
source, the square root in the consistency computation, is modelled with
Real.sqrt.
-/

namespace AMC

/-- A Python value held in a fund-metric dictionary: None, a string, or a
number.  Stored metric values reach the engine in exactly these shapes. -/
inductive Val where
  | vnone : Val
  | vstr : List Char → Val
  | vnum : ℚ → Val
deriving DecidableEq

/-- Characters of a string literal. -/
def str (s : String) : List Char := s.toList

/-- Numeric value of a list of decimal digits (most significant first). -/
def digitsVal (l : List Char) : ℕ :=
  l.foldl (fun a c => 10 * a + (c.toNat - 48)) 0

/-- Parse an unsigned decimal literal (digits with an optional fractional
part), the fragment of Python float parsing exercised by the stored metric
strings.  Fails on anything else. -/
def parseUnsigned (s : List Char) : Option ℚ :=
  let ip := s.takeWhile Char.isDigit
  let rest := s.dropWhile Char.isDigit
  match rest with
  | [] => if ip.isEmpty then none else some (digitsVal ip)
  | '.' :: frac =>
      if frac.all Char.isDigit ∧ (ip ≠ [] ∨ frac ≠ []) then
        some ((digitsVal ip : ℚ) + (digitsVal frac : ℚ) / (10 : ℚ) ^ frac.length)
      else none
  | _ => none

/-- Parse a signed decimal literal, as Python float(...) does on the
engine's inputs; anything unparseable yields none (the source catches the
ValueError and returns None). -/
def parseFloat (s : List Char) : Option ℚ :=
  match s with
  | '-' :: rest => (parseUnsigned rest).map (fun q => -q)
  | '+' :: rest => parseUnsigned rest
  | _ => parseUnsigned s

/-- Characters removed before parsing: value.replace(',', '').replace('%', '')
removes every comma and every percent sign, wherever it occurs. -/
def stripSep (s : List Char) : List Char :=
  s.filter (fun c => !(c == ',' || c == '%'))

/-- The literal string N/A. -/
def naStr : List Char := str "N/A"

/-- The literal string consisting of a single dash. -/
def dashStr : List Char := str "-"

/-- Embedding of tools.py _safe_float: None, 'N/A' and '-' map to None;
strings are cleaned of commas and percent signs and parsed; numbers pass
through; unparseable values map to None instead of raising. -/
def safe_float : Val → Option ℚ
  | .vnone => none
  | .vnum q => some q
  | .vstr s => if s = naStr ∨ s = dashStr then none else parseFloat (stripSep s)

/-- Embedding of the Python idiom `_safe_float(x) or d`: the default d is
substituted when the parse yields None, and also when it yields 0, because
0.0 is falsy in Python. -/
def floatOr (v : Option ℚ) (d : ℚ) : ℚ :=
  match v with
  | none => d
  | some q => if q = 0 then d else q

/-- A fund dictionary as assembled by query_funds_by_risk_profile /
_get_fund_complete_data.  A field holds none when its key is absent from
the dictionary, and some v when the key is present with Python value v
(which may itself be None, i.e. Val.vnone).  ter is the dict key
named for the total expense ratio. -/
structure Fund where
  name : List Char
  riskProfile : Option Val := none
  return365d : Option Val := none
  ter : Option Val := none
  returnYtd : Option Val := none
  nav : Option Val := none
  riskCategory : Option Val := none
deriving DecidableEq

/-- Embedding of tools.py _calculate_fund_score.  The time horizon is
accepted and ignored, exactly as in the source. -/
def calculate_fund_score (fund : Fund) (priority : List Char)
    (timeHorizon : List Char) : ℚ :=
  let _ := timeHorizon
  let score : ℚ :=
    if priority = str "returns" then
      floatOr (safe_float (fund.return365d.getD (.vnum 0))) 0 * (8 / 10)
    else if priority = str "fees" then
      (5 - floatOr (safe_float (fund.ter.getD (.vnum 5))) 5) * 20
    else if priority = str "stability" then 50
    else
      floatOr (safe_float (fund.return365d.getD (.vnum 0))) 0 * (6 / 10)
        + (5 - floatOr (safe_float (fund.ter.getD (.vnum 5))) 5) * 10
  max score 0

/-- Insert x into a list sorted descending by score, after every element
scoring at least score x and before the first scoring strictly less.  This
is where an element lands under Python's stable sort with reverse=True:
earlier input elements precede later ones of equal score. -/
def insertDesc {α : Type} (score : α → ℚ) (x : α) : List α → List α
  | [] => [x]
  | y :: ys => if score y ≤ score x then x :: y :: ys else y :: insertDesc score x ys

/-- Stable descending sort by a rational score, the behaviour of Python's
sorted(..., key=score, reverse=True) and list.sort(key=score, reverse=True). -/
def pySortDesc {α : Type} (score : α → ℚ) : List α → List α
  | [] => []
  | x :: xs => insertDesc score x (pySortDesc score xs)

/-- Embedding of the candidate-collection loop of tools.py smart_recommender:
each fund is scored and kept, paired with its score, only when the score is
strictly positive. -/
def smart_recommender_candidates (funds : List Fund)
    (priority timeHorizon : List Char) : List (Fund × ℚ) :=
  funds.filterMap (fun f =>
    let s := calculate_fund_score f priority timeHorizon
    if 0 < s then some (f, s) else none)

/-- Embedding of the ranking step of smart_recommender: the candidates are
sorted by score, descending, with Python's stable sort. -/
def smart_recommender_ranked (funds : List Fund)
    (priority timeHorizon : List Char) : List (Fund × ℚ) :=
  pySortDesc Prod.snd (smart_recommender_candidates funds priority timeHorizon)

/-- Embedding of the top-3 truncation of smart_recommender. -/
def smart_recommender_top (funds : List Fund)
    (priority timeHorizon : List Char) : List (Fund × ℚ) :=
  (smart_recommender_ranked funds priority timeHorizon).take 3

/-- Screening criteria dictionary: each field is none when the key is absent.
risk holds the value compared against the fund's risk profile. -/
structure Criteria where
  minReturn : Option ℚ := none
  maxFee : Option ℚ := none
  risk : Option Val := none
deriving DecidableEq

/-- Embedding of tools.py _meets_criteria: a fund passes when every present
criterion holds; the numeric reads go through _safe_float(...) or default. -/
def meets_criteria (fund : Fund) (c : Criteria) : Bool :=
  (match c.minReturn with
   | some m => decide (m ≤ floatOr (safe_float (fund.return365d.getD (.vnum 0))) 0)
   | none => true) &&
  (match c.maxFee with
   | some m => decide (floatOr (safe_float (fund.ter.getD (.vnum 999))) 999 ≤ m)
   | none => true) &&
  (match c.risk with
   | some v => decide (fund.riskProfile.getD .vnone = v)
   | none => true)

/-- Embedding of tools.py _calculate_screening_score; the criteria argument
is accepted and ignored, exactly as in the source. -/
def calculate_screening_score (fund : Fund) (criteria : Criteria) : ℚ :=
  let _ := criteria
  max (floatOr (safe_float (fund.return365d.getD (.vnum 0))) 0 * (4 / 10)
    + (5 - floatOr (safe_float (fund.ter.getD (.vnum 5))) 5) * 10) 0

/-- Embedding of the filter-score-sort pipeline of tools.py fund_screener,
applied to the already-fetched fund dictionaries. -/
def fund_screener_ranked (funds : List Fund) (c : Criteria) : List (Fund × ℚ) :=
  pySortDesc Prod.snd
    ((funds.filter (fun f => meets_criteria f c)).map
      (fun f => (f, calculate_screening_score f c)))

/-- The allocation-percentage table of tools.py _create_portfolio_allocation,
as (Low, Medium, High) percentages; any risk profile other than Low and
Medium takes the High row, as in the source's else branch. -/
def allocation_percentages (riskProfile diversification : List Char) : ℚ × ℚ × ℚ :=
  if riskProfile = str "Low" then
    (if diversification = str "conservative" then 70 else 60,
     if diversification = str "conservative" then 25 else 30,
     if diversification = str "conservative" then 5 else 10)
  else if riskProfile = str "Medium" then
    (if diversification = str "conservative" then 40 else 30,
     if diversification = str "conservative" then 50 else 50,
     if diversification = str "conservative" then 10 else 20)
  else
    (if diversification = str "conservative" then 20 else 10,
     if diversification = str "conservative" then 30 else 30,
     if diversification = str "conservative" then 50 else 60)

/-- The sort key used to pick the best fund of a bucket:
_safe_float(x.get('return_365d', 0)) or 0. -/
def fundKey (f : Fund) : ℚ := floatOr (safe_float (f.return365d.getD (.vnum 0))) 0

/-- First element attaining the maximal key, the behaviour of Python's
max(..., key=...), which keeps the current best unless a later element is
strictly greater. -/
def maxByFirst {α : Type} (key : α → ℚ) : List α → Option α
  | [] => none
  | x :: xs =>
    match maxByFirst key xs with
    | none => some x
    | some y => if key x < key y then some y else some x

/-- Lowercasing as Python str.lower on the ASCII fund names. -/
def pyLower (s : List Char) : List Char := s.map Char.toLower

/-- One allocation entry as built by _create_portfolio_allocation.  ter
carries the total-expense-ratio dict key. -/
structure AllocationEntry where
  fundName : List Char
  riskCategory : List Char
  percentage : ℚ
  rationale : List Char
  nav : Option ℚ
  ter : Option ℚ
  return365d : Option ℚ
deriving DecidableEq

/-- The entry built for a bucket's selected fund, with the source's dict
defaults (nav 100, expense ratio 2.0, return 0). -/
def mkAllocationEntry (cat : List Char) (pct : ℚ) (f : Fund) : AllocationEntry :=
  { fundName := f.name
    riskCategory := cat
    percentage := pct
    rationale := str "Best performing " ++ pyLower cat ++ str " risk fund for diversification"
    nav := safe_float (f.nav.getD (.vnum 100))
    ter := safe_float (f.ter.getD (.vnum 2))
    return365d := safe_float (f.return365d.getD (.vnum 0)) }

/-- The funds of one risk bucket, in input order: those whose risk_category
key equals the bucket label. -/
def bucketFunds (funds : List Fund) (cat : List Char) : List Fund :=
  funds.filter (fun f => decide (f.riskCategory.getD .vnone = .vstr cat))

/-- Embedding of tools.py _create_portfolio_allocation: walk the three risk
buckets in the order Low, Medium, High; for each bucket with positive
percentage and at least one fund, emit an entry for the first fund attaining
the maximal 365-day return; buckets with zero percentage or no funds are
skipped entirely. -/
def create_portfolio_allocation (funds : List Fund)
    (riskProfile diversification : List Char) : List AllocationEntry :=
  let ps := allocation_percentages riskProfile diversification
  [(str "Low", ps.1), (str "Medium", ps.2.1), (str "High", ps.2.2)].filterMap
    (fun cp =>
      if 0 < cp.2 then
        (maxByFirst fundKey (bucketFunds funds cp.1)).map (mkAllocationEntry cp.1 cp.2)
      else none)

/-- Embedding of tools.py _calculate_correlation: risk profiles default to
the string Medium when the key is absent, returns default to 0, and the
heuristic value is clamped into [-1, 1]. -/
def calculate_correlation (f1 f2 : Fund) : ℚ :=
  let risk1 := f1.riskProfile.getD (.vstr (str "Medium"))
  let risk2 := f2.riskProfile.getD (.vstr (str "Medium"))
  let r1 := floatOr (safe_float (f1.return365d.getD (.vnum 0))) 0
  let r2 := floatOr (safe_float (f2.return365d.getD (.vnum 0))) 0
  let corr : ℚ :=
    if risk1 = risk2 then 7 / 10 + |r1 - r2| / 100 * (-(4 / 10))
    else 3 / 10 + |r1 - r2| / 100 * (-(2 / 10))
  max (-1) (min 1 corr)

/-- Python whitespace characters recognised by str.split(). -/
def pyIsSpace (c : Char) : Bool :=
  c == ' ' || c == '\t' || c == '\n' || c == '\r' || c.toNat == 11 || c.toNat == 12

/-- Removal of every (non-overlapping, left-to-right) occurrence of the
lowercase word fund, as str.replace("fund", "") does after lowercasing. -/
def removeFund : List Char → List Char
  | 'f' :: 'u' :: 'n' :: 'd' :: rest => removeFund rest
  | c :: rest => c :: removeFund rest
  | [] => []

/-- Python str.split() with no separator: split on runs of whitespace,
discarding empty pieces, so leading and trailing whitespace is ignored
(which also makes the preceding str.strip() of the source a no-op). -/
def pySplit (s : List Char) : List (List Char) :=
  (s.foldr (fun c acc =>
      if pyIsSpace c then [] :: acc
      else match acc with
        | [] => [[c]]
        | w :: ws => (c :: w) :: ws) []).filter (fun w => !w.isEmpty)

/-- The keyword tokens of a requested fund name in performance_analyzer:
lowercase, delete the substring fund everywhere, split on whitespace. -/
def fuzzy_keywords (requested : List Char) : List (List Char) :=
  pySplit (removeFund (pyLower requested))

/-- Substring test, the Python expression keyword in available_lower. -/
def isSubstr (pat : List Char) : List Char → Bool
  | [] => pat.isEmpty
  | c :: rest => pat.isPrefixOf (c :: rest) || isSubstr pat rest

/-- How many of the requested keywords occur in the lowercased known name,
the per-fund score of the fuzzy-matching loop. -/
def keyword_score (keywords : List (List Char)) (available : List Char) : ℕ :=
  (keywords.filter (fun k => isSubstr k (pyLower available))).length

/-- The best-match loop of performance_analyzer: start from (None, 0) and
replace the running best only on a strictly greater score. -/
def best_match_go (keywords : List (List Char)) :
    List (List Char) → Option (List Char) × ℕ → Option (List Char) × ℕ
  | [], acc => acc
  | af :: rest, acc =>
      best_match_go keywords rest
        (if acc.2 < keyword_score keywords af then (some af, keyword_score keywords af) else acc)

/-- Embedding of the fund-name resolution of performance_analyzer: exact
match wins; otherwise the keyword-score loop; otherwise the first known
fund; with no known funds, the requested name itself. -/
def resolve_fund_name (requested : List Char) (avail : List (List Char)) : List Char :=
  if requested ∈ avail then requested
  else
    match (best_match_go (fuzzy_keywords requested) avail (none, 0)).1 with
    | some m => m
    | none =>
        match avail with
        | a :: _ => a
        | [] => requested

/-- The list of available period returns assembled by
_calculate_consistency_score: one optional store value per period key in
the order 30D, 90D, 180D, 365D; a missing record or an unparseable value
contributes nothing. -/
def consistency_returns (vs : List (Option Val)) : List ℚ :=
  vs.filterMap (fun ov => ov.bind safe_float)

/-- Python round(x, 2): the nearest multiple of 1/100.  Python resolves
exact midpoints to the even digit while round here rounds them up; no
statement below depends on a midpoint value. -/
noncomputable def round2 (x : ℝ) : ℝ := (round (100 * x) : ℤ) / 100

/-- The record produced by _calculate_consistency_score. -/
structure ConsistencyRecord where
  fundName : List Char
  consistencyScore : ℝ
  meanReturn : ℝ
  volatility : ℝ
  rating : List Char

/-- Embedding of tools.py _get_consistency_rating. -/
noncomputable def get_consistency_rating (score : ℝ) : List Char :=
  if 80 ≤ score then str "Highly Consistent"
  else if 60 ≤ score then str "Moderately Consistent"
  else if 40 ≤ score then str "Variable"
  else str "Highly Variable"

/-- sum(returns) / len(returns) over the available returns. -/
def consistency_mean (vs : List (Option Val)) : ℚ :=
  (consistency_returns vs).sum / (consistency_returns vs).length

/-- Population variance sum((r - mean)^2) / len(returns). -/
def consistency_variance (vs : List (Option Val)) : ℚ :=
  ((consistency_returns vs).map (fun r => (r - consistency_mean vs) ^ 2)).sum
    / (consistency_returns vs).length

/-- The source's std_dev = variance ** 0.5. -/
noncomputable def consistency_stddev (vs : List (Option Val)) : ℝ :=
  Real.sqrt (consistency_variance vs : ℝ)

/-- The source's unrounded max(0, min(100, mean_return - std_dev * 2)). -/
noncomputable def consistency_score_raw (vs : List (Option Val)) : ℝ :=
  max 0 (min 100 ((consistency_mean vs : ℝ) - consistency_stddev vs * 2))

/-- Embedding of tools.py _calculate_consistency_score on the fetched
period values: fewer than three available returns yield none; otherwise the
mean and population standard deviation give the clamped consistency score,
stored rounded to two decimals, with the rating computed on the unrounded
score. -/
noncomputable def calculate_consistency_score (fundName : List Char)
    (vs : List (Option Val)) : Option ConsistencyRecord :=
  if (consistency_returns vs).length < 3 then none
  else
    some { fundName := fundName
           consistencyScore := round2 (consistency_score_raw vs)
           meanReturn := round2 ((consistency_mean vs : ℚ) : ℝ)
           volatility := round2 (consistency_stddev vs)
           rating := get_consistency_rating (consistency_score_raw vs) }

/-! ### Properties of the stable descending sort -/

theorem insertDesc_perm {α : Type} (score : α → ℚ) (x : α) :
    ∀ l : List α, List.Perm (insertDesc score x l) (x :: l)
  | [] => List.Perm.refl _
  | y :: ys => by
      by_cases h : score y ≤ score x
      · simp [insertDesc, h]
      · simp only [insertDesc, if_neg h]
        exact ((insertDesc_perm score x ys).cons y).trans (List.Perm.swap x y ys)

theorem pySortDesc_perm {α : Type} (score : α → ℚ) :
    ∀ l : List α, List.Perm (pySortDesc score l) l
  | [] => List.Perm.refl _
  | x :: xs => (insertDesc_perm score x _).trans ((pySortDesc_perm score xs).cons x)

theorem insertDesc_pairwise {α : Type} (score : α → ℚ) (x : α) :
    ∀ l : List α, l.Pairwise (fun a b => score b ≤ score a) →
      (insertDesc score x l).Pairwise (fun a b => score b ≤ score a) := by
  intro l
  induction l with
  | nil => intro _; simp [insertDesc]
  | cons y ys ih =>
    intro h
    rcases List.pairwise_cons.mp h with ⟨hy, hys⟩
    by_cases hxy : score y ≤ score x
    · rw [insertDesc, if_pos hxy]
      refine List.pairwise_cons.mpr ⟨fun b hb => ?_, h⟩
      rcases List.mem_cons.mp hb with rfl | hb'
      · exact hxy
      · exact (hy b hb').trans hxy
    · rw [insertDesc, if_neg hxy]
      refine List.pairwise_cons.mpr ⟨fun b hb => ?_, ih hys⟩
      have hb' : b ∈ x :: ys := (insertDesc_perm score x ys).mem_iff.mp hb
      rcases List.mem_cons.mp hb' with rfl | hb''
      · exact le_of_lt (not_le.mp hxy)
      · exact hy b hb''

theorem pySortDesc_pairwise {α : Type} (score : α → ℚ) :
    ∀ l : List α, (pySortDesc score l).Pairwise (fun a b => score b ≤ score a)
  | [] => by simp [pySortDesc]
  | x :: xs => insertDesc_pairwise score x _ (pySortDesc_pairwise score xs)

theorem insertDesc_filter_of_eq {α : Type} (score : α → ℚ) (s : ℚ) (x : α)
    (hx : score x = s) :
    ∀ l : List α, (insertDesc score x l).filter (fun a => decide (score a = s)) =
      x :: l.filter (fun a => decide (score a = s))
  | [] => by simp [insertDesc, hx]
  | y :: ys => by
      by_cases hxy : score y ≤ score x
      · simp only [insertDesc, if_pos hxy]
        simp [List.filter_cons, hx]
      · have hy : ¬ (score y = s) := fun h => hxy (le_of_eq (h.trans hx.symm))
        simp only [insertDesc, if_neg hxy]
        simp [List.filter_cons, hy, insertDesc_filter_of_eq score s x hx ys]

theorem insertDesc_filter_of_ne {α : Type} (score : α → ℚ) (s : ℚ) (x : α)
    (hx : ¬ (score x = s)) :
    ∀ l : List α, (insertDesc score x l).filter (fun a => decide (score a = s)) =
      l.filter (fun a => decide (score a = s))
  | [] => by simp [insertDesc, hx]
  | y :: ys => by
      by_cases hxy : score y ≤ score x
      · simp only [insertDesc, if_pos hxy]
        simp [List.filter_cons, hx]
      · simp only [insertDesc, if_neg hxy]
        simp [List.filter_cons, insertDesc_filter_of_ne score s x hx ys]

theorem pySortDesc_filter {α : Type} (score : α → ℚ) (s : ℚ) :
    ∀ l : List α, (pySortDesc score l).filter (fun a => decide (score a = s)) =
      l.filter (fun a => decide (score a = s))
  | [] => rfl
  | x :: xs => by
      by_cases hx : score x = s
      · rw [pySortDesc, insertDesc_filter_of_eq score s x hx,
          pySortDesc_filter score s xs]
        simp [List.filter_cons, hx]
      · rw [pySortDesc, insertDesc_filter_of_ne score s x hx,
          pySortDesc_filter score s xs]
        simp [List.filter_cons, hx]

/-! ### Claim theorems -/

/-- C8: the ranking of smart_recommender sorts the scored candidates in
descending order of score; the sort is stable, in that funds of any one
given score appear in their original candidate order; it is a permutation
of the candidates; and the top-3 selection is the truncation of the full
sorted list. -/
theorem c8_ranking_descending_stable_truncation (funds : List Fund)
    (priority timeHorizon : List Char) :
    (smart_recommender_ranked funds priority timeHorizon).Pairwise
        (fun a b => b.2 ≤ a.2)
      ∧ (∀ s : ℚ, (smart_recommender_ranked funds priority timeHorizon).filter
            (fun a => decide (a.2 = s))
          = (smart_recommender_candidates funds priority timeHorizon).filter
            (fun a => decide (a.2 = s)))
      ∧ List.Perm (smart_recommender_ranked funds priority timeHorizon)
          (smart_recommender_candidates funds priority timeHorizon)
      ∧ smart_recommender_top funds priority timeHorizon
          = (smart_recommender_ranked funds priority timeHorizon).take 3 :=
  ⟨pySortDesc_pairwise Prod.snd _,
   fun s => pySortDesc_filter Prod.snd s _,
   pySortDesc_perm Prod.snd _,
   rfl⟩

/-- C1, counterexample: a fund whose computed priority score is 0 after the
floor (here: priority fees with an expense ratio of exactly 5) is not kept
in the candidate set at all, so it cannot rank last among equals — the
claim that it remains eligible is false. -/
theorem c1_counterexample_zero_score_dropped :
    calculate_fund_score { name := str "Z", ter := some (.vnum 5) }
        (str "fees") (str "1 year") = 0
      ∧ smart_recommender_candidates [{ name := str "Z", ter := some (.vnum 5) }]
          (str "fees") (str "1 year") = []
      ∧ smart_recommender_ranked [{ name := str "Z", ter := some (.vnum 5) }]
          (str "fees") (str "1 year") = [] := by
  refine ⟨?_, ?_, ?_⟩ <;>
    simp [calculate_fund_score, smart_recommender_candidates, smart_recommender_ranked,
      pySortDesc, safe_float, floatOr, str]

/-- C1, amended: a fund enters the ranked candidate set of smart_recommender
exactly when its floored priority score is strictly positive; funds whose
score is 0 after the max(score, 0) floor are dropped from the
recommendations, not ranked last. -/
theorem c1_candidates_iff_positive_score (funds : List Fund)
    (priority timeHorizon : List Char) (f : Fund) (s : ℚ) :
    (f, s) ∈ smart_recommender_ranked funds priority timeHorizon
      ↔ f ∈ funds ∧ s = calculate_fund_score f priority timeHorizon
          ∧ 0 < calculate_fund_score f priority timeHorizon := by
  unfold smart_recommender_ranked smart_recommender_candidates
  rw [(pySortDesc_perm Prod.snd _).mem_iff]
  simp only [List.mem_filterMap]
  constructor
  · rintro ⟨a, ha, hfa⟩
    by_cases hpos : 0 < calculate_fund_score a priority timeHorizon
    · rw [if_pos hpos] at hfa
      injection hfa with h1
      rw [Prod.mk.injEq] at h1
      obtain ⟨rfl, rfl⟩ := h1
      exact ⟨ha, rfl, hpos⟩
    · rw [if_neg hpos] at hfa; exact absurd hfa (by simp)
  · rintro ⟨hf, rfl, hpos⟩
    exact ⟨f, hf, by rw [if_pos hpos]⟩

/-- C1 witness: a fund with a strictly positive score (returns priority,
365-day return 100, score 80) is in the ranked candidates. -/
theorem c1_witness_positive_score_kept :
    (({ name := str "A", return365d := some (.vnum 100) } : Fund), (80 : ℚ))
      ∈ smart_recommender_ranked [{ name := str "A", return365d := some (.vnum 100) }]
          (str "returns") (str "1 year") :=
  (c1_candidates_iff_positive_score _ _ _ _ _).mpr
    ⟨by simp,
     by norm_num [calculate_fund_score, safe_float, floatOr, str],
     by norm_num [calculate_fund_score, safe_float, floatOr, str]⟩

/-- The scoring formulas exactly as claimed: per-metric defaults substituted
only when the stored value is missing or unparseable (Option.getD), never
when it is present and zero; floored at 0. -/
def score_fund_per_claim (fund : Fund) (priority : List Char) : ℚ :=
  let ret := (safe_float (fund.return365d.getD (.vnum 0))).getD 0
  let fee := (safe_float (fund.ter.getD (.vnum 5))).getD 5
  if priority = str "returns" then max (ret * (8 / 10)) 0
  else if priority = str "fees" then max ((5 - fee) * 20) 0
  else if priority = str "stability" then max 50 0
  else max (ret * (6 / 10) + (5 - fee) * 10) 0

/-- C3, counterexample: for a fund whose stored expense ratio is exactly 0,
the claimed fees formula gives (5 - 0) * 20 = 100, but the code's
`_safe_float(...) or 5` treats the falsy 0.0 as missing and yields
(5 - 5) * 20 = 0. -/
theorem c3_counterexample_zero_expense :
    calculate_fund_score { name := str "Z", ter := some (.vnum 0) }
        (str "fees") (str "1 year") = 0
      ∧ score_fund_per_claim { name := str "Z", ter := some (.vnum 0) } (str "fees") = 100
      ∧ calculate_fund_score { name := str "Z", ter := some (.vnum 0) }
          (str "fees") (str "1 year")
        ≠ score_fund_per_claim { name := str "Z", ter := some (.vnum 0) } (str "fees") := by
  norm_num +decide [calculate_fund_score, score_fund_per_claim, safe_float, floatOr, str]

/-- C3, amended: the four priority formulas hold with the defaults
substituted whenever the metric is missing, unparseable, or stored as 0
(the Python `or` treats 0.0 as missing); the result is floored at 0, so the
score is nonnegative for every priority. -/
theorem c3_score_formulas_and_floor (fund : Fund) (timeHorizon : List Char) :
    calculate_fund_score fund (str "returns") timeHorizon
        = max (floatOr (safe_float (fund.return365d.getD (.vnum 0))) 0 * (8 / 10)) 0
      ∧ calculate_fund_score fund (str "fees") timeHorizon
        = max ((5 - floatOr (safe_float (fund.ter.getD (.vnum 5))) 5) * 20) 0
      ∧ calculate_fund_score fund (str "stability") timeHorizon = 50
      ∧ calculate_fund_score fund (str "balanced") timeHorizon
        = max (floatOr (safe_float (fund.return365d.getD (.vnum 0))) 0 * (6 / 10)
            + (5 - floatOr (safe_float (fund.ter.getD (.vnum 5))) 5) * 10) 0
      ∧ ∀ priority : List Char, 0 ≤ calculate_fund_score fund priority timeHorizon := by
  refine ⟨?_, ?_, ?_, ?_, fun p => ?_⟩
  · simp +decide [calculate_fund_score, str]
  · simp +decide [calculate_fund_score, str]
  · simp +decide [calculate_fund_score, str]
  · simp +decide [calculate_fund_score, str]
  · unfold calculate_fund_score
    exact le_max_right _ _

/-- C2, counterexample: a fund with a stored expense ratio of exactly 0 and
the criterion max_fee = 1.5 should pass the claimed screen (0 ≤ 1.5, the
999 default applying only to missing values), but the code's
`_safe_float(...) or 999` turns the falsy 0.0 into 999 and rejects it. -/
theorem c2_counterexample_zero_expense_rejected :
    meets_criteria { name := str "Z", ter := some (.vnum 0), return365d := some (.vnum 50) }
        { maxFee := some (3 / 2) } = false
      ∧ (safe_float (({ name := str "Z", ter := some (.vnum 0), return365d := some (.vnum 50) } : Fund).ter.getD (.vnum 999))).getD 999 ≤ 3 / 2 := by
  refine ⟨?_, by norm_num [safe_float]⟩
  norm_num [meets_criteria, safe_float, floatOr]

/-- C2, amended: the screen keeps a fund iff every present criterion holds,
with the numeric defaults (0 for the return, 999 and 5 for the expense
ratio) substituted whenever the stored value is missing, unparseable, or 0
(Python `or` falsiness); survivors carry the stated score, floored at 0,
and the screener output is the stable descending sort by that score. -/
theorem c2_screening_filters_scores_sorts (fund : Fund) (c : Criteria)
    (funds : List Fund) (s : ℚ) :
    (meets_criteria fund c = true ↔
        (∀ m, c.minReturn = some m →
          m ≤ floatOr (safe_float (fund.return365d.getD (.vnum 0))) 0)
      ∧ (∀ m, c.maxFee = some m →
          floatOr (safe_float (fund.ter.getD (.vnum 999))) 999 ≤ m)
      ∧ (∀ v, c.risk = some v → fund.riskProfile.getD .vnone = v))
    ∧ calculate_screening_score fund c
        = max (floatOr (safe_float (fund.return365d.getD (.vnum 0))) 0 * (4 / 10)
            + (5 - floatOr (safe_float (fund.ter.getD (.vnum 5))) 5) * 10) 0
    ∧ 0 ≤ calculate_screening_score fund c
    ∧ (fund_screener_ranked funds c).Pairwise (fun a b => b.2 ≤ a.2)
    ∧ ((fund, s) ∈ fund_screener_ranked funds c ↔
        fund ∈ funds ∧ meets_criteria fund c = true
          ∧ s = calculate_screening_score fund c) := by
  refine ⟨?_, rfl, le_max_right _ _, pySortDesc_pairwise Prod.snd _, ?_⟩
  · rcases c with ⟨mr, mf, rk⟩
    cases mr <;> cases mf <;> cases rk <;>
      simp [meets_criteria, Bool.and_eq_true, decide_eq_true_iff, and_assoc]
  · unfold fund_screener_ranked
    rw [(pySortDesc_perm Prod.snd _).mem_iff]
    simp only [List.mem_map, List.mem_filter]
    constructor
    · rintro ⟨a, ⟨ha, hm⟩, hfa⟩
      rw [Prod.mk.injEq] at hfa
      obtain ⟨rfl, rfl⟩ := hfa
      exact ⟨ha, hm, rfl⟩
    · rintro ⟨hf, hm, rfl⟩
      exact ⟨fund, ⟨hf, hm⟩, rfl⟩

/-- C2 witness: a concrete fund (return 50, fee 1) passes the screen
min_return = 30, max_fee = 1.5 and appears in the ranked output with score
50 * 0.4 + (5 - 1) * 10 = 60. -/
theorem c2_witness_concrete_screen :
    (({ name := str "A", return365d := some (.vnum 50), ter := some (.vnum 1) } : Fund), (60 : ℚ))
      ∈ fund_screener_ranked
          [{ name := str "A", return365d := some (.vnum 50), ter := some (.vnum 1) }]
          { minReturn := some 30, maxFee := some (3 / 2) } :=
  ((c2_screening_filters_scores_sorts _ _ _ _).2.2.2.2).mpr
    ⟨by simp,
     by norm_num [meets_criteria, safe_float, floatOr],
     by norm_num [calculate_screening_score, safe_float, floatOr]⟩

/-- Drop one trailing percent sign, as the claim words the normalizer. -/
def stripTrailingPercent (s : List Char) : List Char :=
  if s.getLast? = some '%' then s.dropLast else s

/-- The normalizer exactly as claimed: commas stripped everywhere, but only
a single trailing percent sign removed before parsing. -/
def safe_float_per_claim : Val → Option ℚ
  | .vnone => none
  | .vnum q => some q
  | .vstr s =>
      if s = naStr ∨ s = dashStr then none
      else parseFloat (stripTrailingPercent (s.filter (fun c => !(c == ','))))

/-- C9, counterexample: on the string 1%2 the code strips the interior
percent sign and parses 12, while the claimed normalizer (trailing percent
only) fails to parse and would return null. -/
theorem c9_counterexample_interior_percent :
    safe_float (.vstr (str "1%2")) = some 12
      ∧ safe_float_per_claim (.vstr (str "1%2")) = none
      ∧ safe_float (.vstr (str "1%2")) ≠ safe_float_per_claim (.vstr (str "1%2")) := by
  decide

/-- C9, amended: null on None, the empty string and the dash; commas and
percent signs are stripped wherever they occur (not only trailing) before
parsing; the claimed examples hold; and any string whose cleaned form does
not parse as a number yields null rather than an error. -/
theorem c9_normalizer_behaviour (s : List Char) :
    safe_float .vnone = none
      ∧ safe_float (.vstr (str "")) = none
      ∧ safe_float (.vstr (str "-")) = none
      ∧ safe_float (.vstr (str "8,950,000,000")) = some 8950000000
      ∧ safe_float (.vstr (str "12.5%")) = some (125 / 10)
      ∧ safe_float (.vstr (str "abc")) = none
      ∧ (s ≠ naStr → s ≠ dashStr → safe_float (.vstr s) = parseFloat (stripSep s))
      ∧ (parseFloat (stripSep s) = none → safe_float (.vstr s) = none) := by
  refine ⟨by decide, by decide, by decide, by decide, ?_, by decide, ?_, ?_⟩
  · simp [safe_float, str, naStr, dashStr, stripSep, parseFloat, parseUnsigned, digitsVal]
    norm_num
  · intro h1 h2
    simp [safe_float, h1, h2]
  · intro h
    by_cases hna : s = naStr
    · simp [safe_float, hna]
    · by_cases hd : s = dashStr
      · simp [safe_float, hd]
      · simp [safe_float, hna, hd, h]

/-- C9 witness: the unparseable-input clause applied at the concrete string
x7, whose cleaned form fails to parse, giving null. -/
theorem c9_witness_unparseable :
    safe_float (.vstr (str "x7")) = none :=
  (c9_normalizer_behaviour (str "x7")).2.2.2.2.2.2.2 (by decide)

/-- The Python `or 0` on an optional number is plain defaulting: 0 is both
the default and the falsy value it replaces. -/
theorem floatOr_zero (v : Option ℚ) : floatOr v 0 = v.getD 0 := by
  cases v with
  | none => rfl
  | some q => by_cases h : q = 0 <;> simp [floatOr, h]

/-- C5: when both funds carry risk-profile labels, the correlation is the
claimed clamped heuristic (0.7 − 0.4·|Δ|/100 on equal labels, else
0.3 − 0.2·|Δ|/100, missing returns read as 0); and for all inputs whatever
the result lies in [-1, 1]. -/
theorem c5_correlation_formula_and_bounds (f1 f2 : Fund) (v1 v2 : Val)
    (h1 : f1.riskProfile = some v1) (h2 : f2.riskProfile = some v2) :
    calculate_correlation f1 f2
      = max (-1) (min 1
          (if v1 = v2 then
            7 / 10 - 4 / 10 * (|(safe_float (f1.return365d.getD (.vnum 0))).getD 0
              - (safe_float (f2.return365d.getD (.vnum 0))).getD 0| / 100)
          else
            3 / 10 - 2 / 10 * (|(safe_float (f1.return365d.getD (.vnum 0))).getD 0
              - (safe_float (f2.return365d.getD (.vnum 0))).getD 0| / 100)))
    ∧ (∀ g1 g2 : Fund, -1 ≤ calculate_correlation g1 g2
        ∧ calculate_correlation g1 g2 ≤ 1) := by
  constructor
  · unfold calculate_correlation
    rw [h1, h2]
    simp only [Option.getD_some, floatOr_zero]
    by_cases h : v1 = v2
    · rw [if_pos h, if_pos h]
      ring_nf
    · rw [if_neg h, if_neg h]
      ring_nf
  · intro g1 g2
    unfold calculate_correlation
    exact ⟨le_max_left _ _, max_le (by norm_num) (min_le_left _ _)⟩

/-- C5 witness: two funds both labelled High with returns 50 and 30 get
correlation 0.7 − 0.4·(20/100) = 0.62, inside [-1, 1]. -/
theorem c5_witness_same_label :
    calculate_correlation
        { name := str "a", riskProfile := some (.vstr (str "High")),
          return365d := some (.vnum 50) }
        { name := str "b", riskProfile := some (.vstr (str "High")),
          return365d := some (.vnum 30) }
      = 62 / 100 := by
  have h := (c5_correlation_formula_and_bounds
    { name := str "a", riskProfile := some (.vstr (str "High")),
      return365d := some (.vnum 50) }
    { name := str "b", riskProfile := some (.vstr (str "High")),
      return365d := some (.vnum 30) }
    (.vstr (str "High")) (.vstr (str "High")) rfl rfl).1
  rw [h]
  norm_num [safe_float]

/-- C10: the correlation heuristic is symmetric in its two arguments,
because it depends only on the equality of the two (defaulted) risk labels
and on the absolute difference of the two (defaulted) returns. -/
theorem c10_correlation_symmetric (f1 f2 : Fund) :
    calculate_correlation f1 f2 = calculate_correlation f2 f1 := by
  unfold calculate_correlation
  dsimp only
  by_cases h : f1.riskProfile.getD (.vstr (str "Medium"))
      = f2.riskProfile.getD (.vstr (str "Medium"))
  · rw [if_pos h, if_pos h.symm, abs_sub_comm]
  · rw [if_neg h, if_neg (fun hh => h hh.symm), abs_sub_comm]

/-- The running maximum keyword score over the known names, with the
loop's initial best score 0. -/
def maxKeywordScore (k : List (List Char)) (avail : List (List Char)) : ℕ :=
  avail.foldr (fun a m => max (keyword_score k a) m) 0

theorem maxKeywordScore_nil (k : List (List Char)) : maxKeywordScore k [] = 0 := rfl

theorem maxKeywordScore_cons (k : List (List Char)) (a : List Char)
    (l : List (List Char)) :
    maxKeywordScore k (a :: l) = max (keyword_score k a) (maxKeywordScore k l) := rfl

theorem maxKeywordScore_mem (k : List (List Char)) :
    ∀ l : List (List Char), 0 < maxKeywordScore k l →
      ∃ a ∈ l, keyword_score k a = maxKeywordScore k l
  | [] => by simp [maxKeywordScore]
  | a :: l => by
      intro h
      rw [maxKeywordScore_cons] at h ⊢
      by_cases hs : maxKeywordScore k l ≤ keyword_score k a
      · exact ⟨a, List.mem_cons_self a l, (max_eq_left hs).symm⟩
      · obtain ⟨x, hx, hxe⟩ := maxKeywordScore_mem k l (by omega)
        exact ⟨x, List.mem_cons_of_mem a hx, by omega⟩

theorem maxKeywordScore_eq_zero (k : List (List Char)) :
    ∀ l : List (List Char), (∀ a ∈ l, keyword_score k a = 0) →
      maxKeywordScore k l = 0
  | [] => fun _ => rfl
  | a :: l => by
      intro h
      rw [maxKeywordScore_cons, h a (List.mem_cons_self a l),
        maxKeywordScore_eq_zero k l (fun x hx => h x (List.mem_cons_of_mem a hx))]
      simp

/-- The best-match loop keeps the initial accumulator when no known name
beats its score, and otherwise ends at the first known name attaining the
maximal score. -/
theorem best_match_go_eq (k : List (List Char)) :
    ∀ (l : List (List Char)) (opt : Option (List Char)) (b : ℕ),
      best_match_go k l (opt, b) =
        if maxKeywordScore k l ≤ b then (opt, b)
        else (l.find? (fun a => decide (keyword_score k a = maxKeywordScore k l)),
              maxKeywordScore k l)
  | [], opt, b => by simp [best_match_go, maxKeywordScore]
  | a :: l, opt, b => by
      simp only [best_match_go, maxKeywordScore_cons]
      by_cases hba : b < keyword_score k a
      · rw [if_pos hba, best_match_go_eq k l (some a) (keyword_score k a)]
        by_cases hMs : maxKeywordScore k l ≤ keyword_score k a
        · rw [if_pos hMs, if_neg (by omega)]
          simp only [max_eq_left hMs]
          rw [List.find?_cons_of_pos _ (by simp)]
        · rw [if_neg hMs, if_neg (by omega)]
          simp only [max_eq_right (le_of_not_le hMs)]
          rw [List.find?_cons_of_neg _ (by simp; omega)]
      · rw [if_neg hba, best_match_go_eq k l opt b]
        by_cases hMb : maxKeywordScore k l ≤ b
        · rw [if_pos hMb, if_pos (by omega)]
        · rw [if_neg hMb, if_neg (by omega)]
          simp only [max_eq_right (by omega : maxKeywordScore k l ≥ keyword_score k a)]
          rw [List.find?_cons_of_neg _ (by simp; omega)]

/-- C7: the fuzzy fund matcher returns the requested name itself on an
exact (case-sensitive) hit; otherwise, when some known name matches at
least one requested keyword, the first known name attaining the maximal
keyword count (ties to the earlier name); when no known name scores above
zero and the list is non-empty, its first name; and, with no known names
at all, the requested name unchanged. -/
theorem c7_fuzzy_matcher_resolution (requested : List Char)
    (avail : List (List Char)) :
    (requested ∈ avail → resolve_fund_name requested avail = requested)
      ∧ (requested ∉ avail →
          0 < maxKeywordScore (fuzzy_keywords requested) avail →
          avail.find? (fun a => decide (keyword_score (fuzzy_keywords requested) a
              = maxKeywordScore (fuzzy_keywords requested) avail))
            = some (resolve_fund_name requested avail))
      ∧ (requested ∉ avail →
          (∀ a ∈ avail, keyword_score (fuzzy_keywords requested) a = 0) →
          ∀ x xs, avail = x :: xs → resolve_fund_name requested avail = x)
      ∧ (avail = [] → resolve_fund_name requested avail = requested) := by
  refine ⟨fun h => by simp [resolve_fund_name, h], ?_, ?_, ?_⟩
  · intro hmem hpos
    obtain ⟨a, ha, hae⟩ := maxKeywordScore_mem (fuzzy_keywords requested) avail hpos
    have hsome : (avail.find? (fun a => decide (keyword_score (fuzzy_keywords requested) a
        = maxKeywordScore (fuzzy_keywords requested) avail))).isSome := by
      rw [List.find?_isSome]
      exact ⟨a, ha, by simp [hae]⟩
    obtain ⟨m, hm⟩ := Option.isSome_iff_exists.mp hsome
    have hres : resolve_fund_name requested avail = m := by
      rw [resolve_fund_name.eq_def, if_neg hmem, best_match_go_eq, if_neg (by omega), hm]
    rw [hm, hres]
  · intro hmem hzero x xs hx
    subst hx
    rw [resolve_fund_name.eq_def, if_neg hmem, best_match_go_eq,
      if_pos (maxKeywordScore_eq_zero _ _ hzero).le]
  · intro h
    subst h
    simp [resolve_fund_name, best_match_go]

/-- C7 witness: the specification's own example — JBS Alpha Fund resolves to
JBS Alpha Growth Fund, the first (and only) known name attaining the
maximal keyword count. -/
theorem c7_witness_spec_example :
    resolve_fund_name (str "JBS Alpha Fund")
        [str "JBS Alpha Growth Fund", str "JBS Beta Fund"]
      = str "JBS Alpha Growth Fund"
    ∧ [str "JBS Alpha Growth Fund", str "JBS Beta Fund"].find?
        (fun a => decide (keyword_score (fuzzy_keywords (str "JBS Alpha Fund")) a
            = maxKeywordScore (fuzzy_keywords (str "JBS Alpha Fund"))
                [str "JBS Alpha Growth Fund", str "JBS Beta Fund"]))
      = some (resolve_fund_name (str "JBS Alpha Fund")
          [str "JBS Alpha Growth Fund", str "JBS Beta Fund"]) :=
  ⟨by decide,
   (c7_fuzzy_matcher_resolution (str "JBS Alpha Fund")
       [str "JBS Alpha Growth Fund", str "JBS Beta Fund"]).2.1
     (by decide) (by decide)⟩

theorem maxByFirst_eq_none_iff {α : Type} (key : α → ℚ) :
    ∀ l : List α, maxByFirst key l = none ↔ l = []
  | [] => by simp [maxByFirst]
  | a :: l => by
      simp only [maxByFirst]
      cases maxByFirst key l with
      | none => simp
      | some y => by_cases h : key a < key y <;> simp [h]

/-- Python max(, key=) keeps the current best on ties, so the reported best
element is a member attaining the maximal key. -/
theorem maxByFirst_spec {α : Type} (key : α → ℚ) :
    ∀ (l : List α) (y : α), maxByFirst key l = some y →
      y ∈ l ∧ ∀ x ∈ l, key x ≤ key y
  | [], y => by simp [maxByFirst]
  | a :: l, y => by
      intro h
      simp only [maxByFirst] at h
      cases hml : maxByFirst key l with
      | none =>
        rw [hml] at h
        dsimp only at h
        injection h with h
        subst h
        have hl : l = [] := (maxByFirst_eq_none_iff key l).mp hml
        subst hl
        exact ⟨List.mem_singleton.mpr rfl,
          fun x hx => le_of_eq (congrArg key (List.mem_singleton.mp hx))⟩
      | some z =>
        rw [hml] at h
        dsimp only at h
        obtain ⟨hz, hall⟩ := maxByFirst_spec key l z hml
        by_cases hk : key a < key z
        · rw [if_pos hk] at h
          injection h with h
          subst h
          exact ⟨List.mem_cons_of_mem a hz, fun x hx => by
            rcases List.mem_cons.mp hx with rfl | hx'
            · exact le_of_lt hk
            · exact hall x hx'⟩
        · rw [if_neg hk] at h
          injection h with h
          subst h
          exact ⟨List.mem_cons_self _ _, fun x hx => by
            rcases List.mem_cons.mp hx with rfl | hx'
            · exact le_refl _
            · exact (hall x hx').trans (not_lt.mp hk)⟩

/-- C4: the portfolio allocator takes its percentages from the static
(risk profile × diversification) table; every emitted entry belongs to one
of the three buckets, carries that bucket's exact (un-renormalized) table
percentage, and names a fund of the bucket attaining the maximal 365-day
return (missing treated as 0); buckets with no funds produce no entry; and
for Medium/conservative with funds in every bucket the entries are exactly
Low 40, Medium 50, High 10, in that order. -/
theorem c4_allocation_table_selection_omission (funds : List Fund)
    (dv : List Char) :
    (allocation_percentages (str "Low") (str "conservative") = (70, 25, 5)
      ∧ allocation_percentages (str "Medium") (str "conservative") = (40, 50, 10)
      ∧ allocation_percentages (str "High") (str "conservative") = (20, 30, 50)
      ∧ (dv ≠ str "conservative" →
          allocation_percentages (str "Low") dv = (60, 30, 10)
            ∧ allocation_percentages (str "Medium") dv = (30, 50, 20)
            ∧ allocation_percentages (str "High") dv = (10, 30, 60)))
    ∧ (∀ rp : List Char, ∀ e ∈ create_portfolio_allocation funds rp dv,
        0 < e.percentage
          ∧ (e.riskCategory, e.percentage) ∈
              [(str "Low", (allocation_percentages rp dv).1),
               (str "Medium", (allocation_percentages rp dv).2.1),
               (str "High", (allocation_percentages rp dv).2.2)]
          ∧ ∃ f ∈ bucketFunds funds e.riskCategory,
              e.fundName = f.name
                ∧ ∀ g ∈ bucketFunds funds e.riskCategory, fundKey g ≤ fundKey f)
    ∧ (bucketFunds funds (str "Low") ≠ [] →
        bucketFunds funds (str "Medium") ≠ [] →
        bucketFunds funds (str "High") ≠ [] →
        (create_portfolio_allocation funds (str "Medium") (str "conservative")).map
            (fun e => (e.riskCategory, e.percentage))
          = [(str "Low", 40), (str "Medium", 50), (str "High", 10)]) := by
  refine ⟨⟨by decide, by decide, by decide, fun h => ?_⟩, ?_, ?_⟩
  · refine ⟨?_, ?_, ?_⟩ <;> simp +decide [allocation_percentages, h]
  · intro rp e he
    unfold create_portfolio_allocation at he
    rw [List.mem_filterMap] at he
    obtain ⟨cp, hcp, hsome⟩ := he
    by_cases hpos : 0 < cp.2
    · rw [if_pos hpos, Option.map_eq_some'] at hsome
      obtain ⟨f, hf, hmk⟩ := hsome
      obtain ⟨hfmem, hfmax⟩ := maxByFirst_spec fundKey _ f hf
      subst hmk
      refine ⟨hpos, ?_, f, hfmem, rfl, hfmax⟩
      simpa [mkAllocationEntry] using hcp
    · rw [if_neg hpos] at hsome
      exact absurd hsome (by simp)
  · intro hL hM hH
    obtain ⟨fL, hfL⟩ := Option.isSome_iff_exists.mp (by
      rw [← Option.ne_none_iff_isSome]
      exact fun hc => hL ((maxByFirst_eq_none_iff fundKey _).mp hc))
    obtain ⟨fM, hfM⟩ := Option.isSome_iff_exists.mp (by
      rw [← Option.ne_none_iff_isSome]
      exact fun hc => hM ((maxByFirst_eq_none_iff fundKey _).mp hc))
    obtain ⟨fH, hfH⟩ := Option.isSome_iff_exists.mp (by
      rw [← Option.ne_none_iff_isSome]
      exact fun hc => hH ((maxByFirst_eq_none_iff fundKey _).mp hc))
    unfold create_portfolio_allocation
    rw [show allocation_percentages (str "Medium") (str "conservative")
        = (40, 50, 10) from by decide]
    simp only [List.filterMap_cons, List.filterMap_nil]
    norm_num
    rw [hfL, hfM, hfH]
    simp [mkAllocationEntry]

/-- C4 witness: three funds, one per bucket, under Medium/conservative give
entries with percentages 40, 50, 10 for Low, Medium, High in order. -/
theorem c4_witness_medium_conservative :
    (create_portfolio_allocation
        [{ name := str "L1", riskCategory := some (.vstr (str "Low")),
           return365d := some (.vnum 10) },
         { name := str "M1", riskCategory := some (.vstr (str "Medium")),
           return365d := some (.vnum 20) },
         { name := str "H1", riskCategory := some (.vstr (str "High")),
           return365d := some (.vnum 30) }]
        (str "Medium") (str "conservative")).map
        (fun e => (e.riskCategory, e.percentage))
      = [(str "Low", 40), (str "Medium", 50), (str "High", 10)] :=
  (c4_allocation_table_selection_omission _ (str "conservative")).2.2
    (by decide) (by decide) (by decide)

theorem round2_nonneg_le100 {x : ℝ} (h0 : 0 ≤ x) (h100 : x ≤ 100) :
    0 ≤ round2 x ∧ round2 x ≤ 100 := by
  unfold round2
  constructor
  · apply div_nonneg _ (by norm_num)
    have h : (0 : ℤ) ≤ round (100 * x) := by
      rw [round_eq]
      exact Int.floor_nonneg.mpr (by linarith)
    exact_mod_cast h
  · rw [div_le_iff₀ (by norm_num : (0 : ℝ) < 100)]
    have h : round (100 * x) ≤ 10000 := by
      rw [round_eq, Int.lt_add_one_iff.symm]
      exact Int.floor_lt.mpr (by push_cast; linarith)
    calc ((round (100 * x) : ℤ) : ℝ) ≤ ((10000 : ℤ) : ℝ) := by exact_mod_cast h
      _ = 100 * 100 := by norm_num

/-- C6, amended: the consistency computation returns null exactly when
fewer than 3 of the four period returns are available; otherwise the
record's consistency_score is clamp(mean − 2·stddev, 0, 100) rounded to two
decimals — hence still within [0, 100] — and the rating, computed on the
unrounded clamped score, is Highly Consistent at ≥80, Moderately Consistent
at ≥60, Variable at ≥40, and Highly Variable below 40. -/
theorem c6_consistency_null_iff_and_clamped_score (fundName : List Char)
    (vs : List (Option Val)) (rec : ConsistencyRecord) (s : ℝ) :
    (calculate_consistency_score fundName vs = none
        ↔ (consistency_returns vs).length < 3)
      ∧ (calculate_consistency_score fundName vs = some rec →
          rec.consistencyScore
              = round2 (max 0 (min 100
                  ((consistency_mean vs : ℝ) - 2 * consistency_stddev vs)))
            ∧ 0 ≤ rec.consistencyScore ∧ rec.consistencyScore ≤ 100
            ∧ rec.rating = get_consistency_rating (consistency_score_raw vs))
      ∧ (80 ≤ s → get_consistency_rating s = str "Highly Consistent")
      ∧ (60 ≤ s → s < 80 → get_consistency_rating s = str "Moderately Consistent")
      ∧ (40 ≤ s → s < 60 → get_consistency_rating s = str "Variable")
      ∧ (s < 40 → get_consistency_rating s = str "Highly Variable") := by
  have hraw0 : 0 ≤ consistency_score_raw vs := le_max_left _ _
  have hraw100 : consistency_score_raw vs ≤ 100 :=
    max_le (by norm_num) (min_le_left _ _)
  refine ⟨?_, ?_, ?_, ?_, ?_, ?_⟩
  · unfold calculate_consistency_score
    by_cases h : (consistency_returns vs).length < 3
    · simp [h]
    · simp [h]
  · intro h
    unfold calculate_consistency_score at h
    by_cases hlen : (consistency_returns vs).length < 3
    · rw [if_pos hlen] at h
      exact absurd h (by simp)
    · rw [if_neg hlen] at h
      injection h with h
      subst h
      refine ⟨?_, (round2_nonneg_le100 hraw0 hraw100).1,
        (round2_nonneg_le100 hraw0 hraw100).2, rfl⟩
      unfold consistency_score_raw
      rw [mul_comm (consistency_stddev vs) 2]
  · intro h80
    unfold get_consistency_rating
    rw [if_pos h80]
  · intro h60 h80
    unfold get_consistency_rating
    rw [if_neg (not_le.mpr h80), if_pos h60]
  · intro h40 h60
    unfold get_consistency_rating
    rw [if_neg (by linarith), if_neg (not_le.mpr h60), if_pos h40]
  · intro h40
    unfold get_consistency_rating
    rw [if_neg (by linarith), if_neg (by linarith), if_neg (not_le.mpr h40)]

/-- The four period values of the C6 counterexample fund: returns 10, 10
and 13 are available, the 365D record is missing. -/
def c6vals : List (Option Val) :=
  [some (.vnum 10), some (.vnum 10), some (.vnum 13), none]

/-- C6, counterexample: with available returns 10, 10, 13 the mean is 11
and the population variance 2, so the claimed score is the irrational
11 − 2·√2 ≈ 8.17, while the stored consistency_score is that value rounded
to two decimals — a rational — so the record's score does not equal the
claimed clamp(mean − 2·stddev, 0, 100). -/
theorem c6_counterexample_score_is_rounded :
    consistency_returns c6vals = [10, 10, 13]
      ∧ consistency_mean c6vals = 11
      ∧ consistency_variance c6vals = 2
      ∧ (calculate_consistency_score (str "F") c6vals).map
            ConsistencyRecord.consistencyScore
          ≠ some (max 0 (min 100
              ((consistency_mean c6vals : ℝ) - 2 * consistency_stddev c6vals))) := by
  have hret : consistency_returns c6vals = [10, 10, 13] := by decide
  have hm : consistency_mean c6vals = 11 := by
    rw [consistency_mean, hret]
    norm_num
  have hv : consistency_variance c6vals = 2 := by
    rw [consistency_variance, hret, hm]
    norm_num
  have hsd : consistency_stddev c6vals = Real.sqrt 2 := by
    rw [consistency_stddev, hv]
    norm_num
  have hsqrt_lt : Real.sqrt 2 < 11 / 2 := by
    rw [Real.sqrt_lt' (by norm_num)]
    norm_num
  have hclamp : max 0 (min 100 ((consistency_mean c6vals : ℝ)
      - 2 * consistency_stddev c6vals)) = 11 - 2 * Real.sqrt 2 := by
    rw [hm, hsd]
    push_cast
    rw [min_eq_right (by nlinarith [Real.sqrt_nonneg 2]),
      max_eq_right (by nlinarith [Real.sqrt_nonneg 2])]
  have hirr : Irrational (11 - 2 * Real.sqrt 2) := by
    have ha : Irrational ((2 : ℚ) * Real.sqrt 2) :=
      irrational_sqrt_two.rat_mul (by norm_num)
    have hb : Irrational ((11 : ℚ) - (2 : ℚ) * Real.sqrt 2) := ha.rat_sub 11
    have hcast : ((11 : ℚ) : ℝ) - ((2 : ℚ) : ℝ) * Real.sqrt 2
        = 11 - 2 * Real.sqrt 2 := by push_cast; ring
    rwa [hcast] at hb
  refine ⟨hret, hm, hv, ?_⟩
  have hscore : (calculate_consistency_score (str "F") c6vals).map
      ConsistencyRecord.consistencyScore
        = some (round2 (consistency_score_raw c6vals)) := by
    unfold calculate_consistency_score
    rw [if_neg (by rw [hret]; norm_num)]
    rfl
  rw [hscore, hclamp]
  intro hcontra
  injection hcontra with hcontra
  have hrat : ¬ Irrational (round2 (consistency_score_raw c6vals)) := by
    unfold round2
    have hq : ((round (100 * consistency_score_raw c6vals) : ℤ) : ℝ) / 100
        = (((round (100 * consistency_score_raw c6vals) : ℚ) / 100 : ℚ) : ℝ) := by
      push_cast
      ring
    rw [hq]
    exact Rat.not_irrational _
  rw [hcontra] at hrat
  exact hrat hirr

/-- The four period values of the C6 witness fund: three equal available
returns 10, 10, 10, the 365D record missing. -/
def c6vals3 : List (Option Val) :=
  [some (.vnum 10), some (.vnum 10), some (.vnum 10), none]

/-- The record produced for the witness fund: score 10, rating Highly
Variable. -/
noncomputable def c6rec3 : ConsistencyRecord :=
  { fundName := str "W", consistencyScore := 10, meanReturn := 10,
    volatility := 0, rating := str "Highly Variable" }

/-- C6 witness: with returns 10, 10, 10 the variance is 0, the clamped
score is exactly 10, and the produced record's score lies within [0, 100]
by the amended theorem. -/
theorem c6_witness_three_equal_returns :
    0 ≤ c6rec3.consistencyScore ∧ c6rec3.consistencyScore ≤ 100 := by
  have hret : consistency_returns c6vals3 = [10, 10, 10] := by decide
  have hm : consistency_mean c6vals3 = 10 := by
    rw [consistency_mean, hret]
    norm_num
  have hv : consistency_variance c6vals3 = 0 := by
    rw [consistency_variance, hret, hm]
    norm_num
  have hsd : consistency_stddev c6vals3 = 0 := by
    rw [consistency_stddev, hv]
    norm_num [Real.sqrt_zero]
  have hraw : consistency_score_raw c6vals3 = 10 := by
    rw [consistency_score_raw, hsd, hm]
    push_cast
    rw [mul_comm, min_eq_right (by norm_num), max_eq_right (by norm_num)]
    norm_num
  have h10 : round2 (10 : ℝ) = 10 := by
    rw [round2, show (100 : ℝ) * 10 = ((1000 : ℤ) : ℝ) by norm_num, round_intCast]
    norm_num
  have h0 : round2 (0 : ℝ) = 0 := by
    rw [round2, show (100 : ℝ) * 0 = ((0 : ℤ) : ℝ) by norm_num, round_intCast]
    norm_num
  have hrate : get_consistency_rating (10 : ℝ) = str "Highly Variable" := by
    unfold get_consistency_rating
    rw [if_neg (by norm_num), if_neg (by norm_num), if_neg (by norm_num)]
  have h : calculate_consistency_score (str "W") c6vals3 = some c6rec3 := by
    unfold calculate_consistency_score c6rec3
    rw [if_neg (by rw [hret]; norm_num), hraw, hsd, hm, h10, hrate]
    push_cast
    rw [h10, h0]
  have hb := (c6_consistency_null_iff_and_clamped_score (str "W") c6vals3
    c6rec3 0).2.1 h
  exact ⟨hb.2.1, hb.2.2.1⟩

end AMC
